import Mathlib

/-!
Verification development for the GTM AI Workflow Simulator's event-log core:
the agent-run record schema, the CSV-backed log store (`log_agent_run` in
`webapp/app.py`, `DataLoader.load_csv_to_db` in `analytics/load_data.py`),
the aggregation views of `DataLoader`, and the SQL query sandbox of the
`/explorer/query` endpoint (`run_query` in `webapp/app.py`).

Modelling conventions:
* CSV cells are modelled at the typed level (`Cell`): the Python toolchain
  (csv.DictWriter writing `str()` of each value, pandas `read_csv` plus
  `pd.to_datetime` re-inferring the types) is abstracted as storing and
  recovering typed cells.  Timestamps are abstracted as integer instants
  (the canonical `YYYY-MM-DD HH:MM:SS` text form round-trips through
  `strftime` / `to_datetime` and compares chronologically).
* Python floats are modelled as rationals (ℚ), Python ints as ℤ.
* SQL aggregate measures are `Option ℚ`: SQL `AVG` / `SUM` over an empty
  set is NULL, modelled as `none`.
-/

/-- A typed CSV cell as stored in the `sample_agent_runs.csv` log and
recovered by `pandas.read_csv` / `pd.to_datetime`. -/
inductive Cell where
  | str : String → Cell
  | int : Int → Cell
  | rat : ℚ → Cell
  | bool : Bool → Cell
  | time : Nat → Cell
deriving DecidableEq, Repr

/-- One agent-run event, with the fields of the canonical CSV schema
(the `fieldnames` list of `log_agent_run` in `webapp/app.py`). -/
structure Record where
  run_id : String
  timestamp : Nat
  user_id : String
  task_type : String
  agent_version : String
  resolution_time_seconds : ℚ
  user_accepted : Bool
  user_rating : Int
  abstained : Bool
  error_occurred : Bool
  lead_source : String
  crm_stage : String
  opportunity_value : ℚ
  workflow_stage : String
  time_saved_minutes : ℚ
  prompt_version : String
deriving DecidableEq, Repr

/-- The canonical column order: the `fieldnames` list in `log_agent_run`
(`webapp/app.py` lines 44-49). -/
def fieldnames : List String :=
  ["run_id", "timestamp", "user_id", "task_type", "agent_version",
   "resolution_time_seconds", "user_accepted", "user_rating", "abstained",
   "error_occurred", "lead_source", "crm_stage", "opportunity_value",
   "workflow_stage", "time_saved_minutes", "prompt_version"]

/-- Serialization of one record to a CSV row, in `fieldnames` order
(`csv.DictWriter.writerow` in `log_agent_run`). -/
def Record.toRow (r : Record) : List Cell :=
  [.str r.run_id, .time r.timestamp, .str r.user_id, .str r.task_type,
   .str r.agent_version, .rat r.resolution_time_seconds, .bool r.user_accepted,
   .int r.user_rating, .bool r.abstained, .bool r.error_occurred,
   .str r.lead_source, .str r.crm_stage, .rat r.opportunity_value,
   .str r.workflow_stage, .rat r.time_saved_minutes, .str r.prompt_version]

/-- The persisted CSV log: a header row naming the columns and one row of
cells per record. -/
structure CsvFile where
  header : List String
  rows : List (List Cell)
deriving DecidableEq, Repr

/-- `log_agent_run` (`webapp/app.py` lines 41-55): appends one serialized
record; if the file does not exist yet it is created and the
`fieldnames` header is written first. -/
def log_agent_run (log : Option CsvFile) (r : Record) : CsvFile :=
  match log with
  | none => { header := fieldnames, rows := [r.toRow] }
  | some f => { header := f.header, rows := f.rows ++ [r.toRow] }

/-- Column access by name: pandas reads a cell through the header position
of the named column. -/
def getCell (h : List String) (row : List Cell) (name : String) : Option Cell :=
  (h.indexOf? name).bind (fun i => row[i]?)

/-- `if name not in df.columns: df[name] = default` in `load_csv_to_db`
(`analytics/load_data.py` lines 21-27): a column missing from the header is
filled with a constant default cell, a present column is read unchanged. -/
def getColOrDefault (h : List String) (row : List Cell) (name : String) (d : Cell) :
    Option Cell :=
  if name ∈ h then getCell h row name else some d

def Cell.asStr : Cell → Option String
  | .str s => some s
  | _ => none

def Cell.asBool : Cell → Option Bool
  | .bool b => some b
  | _ => none

def Cell.asInt : Cell → Option Int
  | .int n => some n
  | _ => none

/-- Numeric read: an integer-typed cell is usable where a float column is
expected (pandas widens ints to floats). -/
def Cell.asRat : Cell → Option ℚ
  | .rat q => some q
  | .int n => some (n : ℚ)
  | _ => none

def Cell.asTime : Cell → Option Nat
  | .time t => some t
  | _ => none

/-- Parse one CSV row into a `Record` by column name, applying the three
legacy-column defaults of `load_csv_to_db` (`analytics/load_data.py`
lines 21-27); any required field that is missing or of the wrong type is a
schema failure (`none`). -/
def parseRecord (h : List String) (row : List Cell) : Option Record := do
  let run_id ← (getCell h row "run_id").bind Cell.asStr
  let timestamp ← (getCell h row "timestamp").bind Cell.asTime
  let user_id ← (getCell h row "user_id").bind Cell.asStr
  let task_type ← (getCell h row "task_type").bind Cell.asStr
  let agent_version ← (getCell h row "agent_version").bind Cell.asStr
  let resolution_time_seconds ← (getCell h row "resolution_time_seconds").bind Cell.asRat
  let user_accepted ← (getCell h row "user_accepted").bind Cell.asBool
  let user_rating ← (getCell h row "user_rating").bind Cell.asInt
  let abstained ← (getCell h row "abstained").bind Cell.asBool
  let error_occurred ← (getCell h row "error_occurred").bind Cell.asBool
  let lead_source ← (getCell h row "lead_source").bind Cell.asStr
  let crm_stage ← (getCell h row "crm_stage").bind Cell.asStr
  let opportunity_value ← (getCell h row "opportunity_value").bind Cell.asRat
  let workflow_stage ←
    (getColOrDefault h row "workflow_stage" (.str "Pipeline Generation")).bind Cell.asStr
  let time_saved_minutes ←
    (getColOrDefault h row "time_saved_minutes" (.rat 0)).bind Cell.asRat
  let prompt_version ←
    (getColOrDefault h row "prompt_version" (.str "v1.0")).bind Cell.asStr
  pure { run_id, timestamp, user_id, task_type, agent_version,
         resolution_time_seconds, user_accepted, user_rating, abstained,
         error_occurred, lead_source, crm_stage, opportunity_value,
         workflow_stage, time_saved_minutes, prompt_version }

/-- Parse every row of the log, in file order; any row failing to parse
fails the whole load (pandas raises on a malformed file). -/
def parseRows (h : List String) : List (List Cell) → Option (List Record)
  | [] => some []
  | row :: rest => do
      let r ← parseRecord h row
      let rs ← parseRows h rest
      pure (r :: rs)

/-- `DataLoader.load_csv_to_db` (`analytics/load_data.py` lines 17-33):
read the whole CSV, convert the (required) timestamp column, fill the three
legacy-optional columns with their defaults when absent, and materialize
the record set.  A file whose rows do not match the header width, or with
no `timestamp` column, fails to load. -/
def load_csv_to_db (f : CsvFile) : Option (List Record) :=
  if f.header.contains "timestamp" && f.rows.all (fun row => row.length == f.header.length)
  then parseRows f.header f.rows
  else none

/-! ## Aggregation engine (`DataLoader` views, `analytics/load_data.py`) -/

/-- SQL `AVG` over a group of values: NULL (`none`) on an empty group. -/
def avgQ (xs : List ℚ) : Option ℚ :=
  if xs = [] then none else some (xs.sum / xs.length)

/-- SQL `SUM` over a group of values: NULL (`none`) on an empty group. -/
def sumQ (xs : List ℚ) : Option ℚ :=
  if xs = [] then none else some xs.sum

/-- `AVG(CASE WHEN p THEN 1.0 ELSE 0.0 END) * 100`, the rate/percentage
measure used throughout the views. -/
def pctTrue (rs : List Record) (p : Record → Bool) : Option ℚ :=
  (avgQ (rs.map (fun r => if p r then (1 : ℚ) else 0))).map (· * 100)

/-- SQL `ROUND(q, d)`: rounding to `d` decimal places (ties rounded up;
no claim verified here depends on tie behaviour). -/
def roundTo (d : Nat) (q : ℚ) : ℚ :=
  ((round (q * 10 ^ d) : ℤ) : ℚ) / 10 ^ d

/-- The result row of `get_summary_stats` (`analytics/load_data.py`
lines 38-53). -/
structure SummaryStats where
  total_runs : Nat
  unique_users : Nat
  task_types : Nat
  avg_resolution_time : Option ℚ
  acceptance_rate : Option ℚ
  avg_rating : Option ℚ
  abstention_rate : Option ℚ
  error_rate : Option ℚ
  total_time_saved : Option ℚ
  total_hours_saved : Option ℚ
deriving DecidableEq, Repr

/-- `DataLoader.get_summary_stats`: whole-set aggregates over the loaded
record set. -/
def get_summary_stats (rs : List Record) : SummaryStats :=
  { total_runs := rs.length
    unique_users := (rs.map (·.user_id)).dedup.length
    task_types := (rs.map (·.task_type)).dedup.length
    avg_resolution_time := avgQ (rs.map (·.resolution_time_seconds))
    acceptance_rate := pctTrue rs (·.user_accepted)
    avg_rating := avgQ (rs.map (fun r => (r.user_rating : ℚ)))
    abstention_rate := pctTrue rs (·.abstained)
    error_rate := pctTrue rs (·.error_occurred)
    total_time_saved := sumQ (rs.map (·.time_saved_minutes))
    total_hours_saved := (sumQ (rs.map (·.time_saved_minutes))).map (fun s => roundTo 1 (s / 60)) }

/-- Byte-wise lexicographic string comparison, the collation used for SQL
`ORDER BY` on a string column (ASCII tags such as "A"/"B" here). -/
def strLeB : List Char → List Char → Bool
  | [], _ => true
  | _ :: _, [] => false
  | a :: s, b :: t =>
    if a.toNat < b.toNat then true
    else if b.toNat < a.toNat then false
    else strLeB s t

def sqlStrLe (a b : String) : Prop := strLeB a.data b.data = true

instance : DecidableRel sqlStrLe := fun a b =>
  instDecidableEqBool (strLeB a.data b.data) true

/-- The result row of `get_metrics_by_version` (`analytics/load_data.py`
lines 55-69). -/
structure VersionRow where
  agent_version : String
  total_tasks : Nat
  accuracy_pct : Option ℚ
  avg_satisfaction : Option ℚ
  avg_resolution_time : Option ℚ
  error_rate : Option ℚ
  abstention_rate : Option ℚ
deriving DecidableEq, Repr

/-- `DataLoader.get_metrics_by_version`: `GROUP BY agent_version` with the
listed aggregates, `ORDER BY agent_version`. -/
def get_metrics_by_version (rs : List Record) : List VersionRow :=
  let keys := List.insertionSort sqlStrLe (rs.map (·.agent_version)).dedup
  keys.map (fun v =>
    let g := rs.filter (fun r => r.agent_version == v)
    { agent_version := v
      total_tasks := g.length
      accuracy_pct := pctTrue g (·.user_accepted)
      avg_satisfaction := avgQ (g.map (fun r => (r.user_rating : ℚ)))
      avg_resolution_time := avgQ (g.map (·.resolution_time_seconds))
      error_rate := pctTrue g (·.error_occurred)
      abstention_rate := pctTrue g (·.abstained) })

/-- The `CASE crm_stage ... END` ordering key of `get_pipeline_funnel`
(`analytics/load_data.py` lines 109-121). -/
def stageRank (s : String) : Nat :=
  if s = "MQL" then 1
  else if s = "SAL" then 2
  else if s = "SQL" then 3
  else if s = "Discovery" then 4
  else if s = "Technical Validation" then 5
  else if s = "Value/Impact" then 6
  else if s = "Negotiation" then 7
  else if s = "Closed Won" then 8
  else if s = "Closed Lost" then 9
  else 10

def stageRankLe (a b : String) : Prop := stageRank a ≤ stageRank b

instance : DecidableRel stageRankLe := fun _ _ => Nat.decLe _ _

instance : IsTotal String stageRankLe := ⟨fun _ _ => Nat.le_total _ _⟩

instance : IsTrans String stageRankLe := ⟨fun _ _ _ => Nat.le_trans⟩

/-- The result row of `get_pipeline_funnel` (`analytics/load_data.py`
lines 99-123). -/
structure FunnelRow where
  crm_stage : String
  count : Nat
  total_value : Option ℚ
  accuracy_pct : Option ℚ
deriving DecidableEq, Repr

/-- `DataLoader.get_pipeline_funnel`: `GROUP BY crm_stage`, ordered by the
fixed stage-progression rank with unknown stages ranked 10 (last). -/
def get_pipeline_funnel (rs : List Record) : List FunnelRow :=
  let keys := List.insertionSort stageRankLe (rs.map (·.crm_stage)).dedup
  keys.map (fun v =>
    let g := rs.filter (fun r => r.crm_stage == v)
    { crm_stage := v
      count := g.length
      total_value := sumQ (g.map (·.opportunity_value))
      accuracy_pct := pctTrue g (·.user_accepted) })

/-- `ORDER BY timestamp DESC`: newest first. -/
def tsDescLe (a b : Record) : Prop := b.timestamp ≤ a.timestamp

instance : DecidableRel tsDescLe := fun _ _ => Nat.decLe _ _

instance : IsTotal Record tsDescLe := ⟨fun _ _ => Nat.le_total _ _⟩

instance : IsTrans Record tsDescLe := ⟨fun _ _ _ h1 h2 => Nat.le_trans h2 h1⟩

/-- `DataLoader.get_audit_log` (`analytics/load_data.py` lines 156-187):
`WHERE` clauses joined with `AND` from the optional filters, the
`outcome` filter mapping accepted/rejected/escalated/error to the
corresponding boolean-field predicate, then `ORDER BY timestamp DESC
LIMIT limit`.  The row-level projection (column renames, rounding of the
displayed resolution time) is not modelled; the view is modelled as the
selected sequence of records. -/
def get_audit_log (rs : List Record) (limit : Nat)
    (task_type version outcome : Option String) : List Record :=
  let r1 := match task_type with
    | some t => rs.filter (fun r => r.task_type == t)
    | none => rs
  let r2 := match version with
    | some v => r1.filter (fun r => r.agent_version == v)
    | none => r1
  let r3 :=
    if outcome = some "accepted" then r2.filter (·.user_accepted)
    else if outcome = some "rejected" then r2.filter (fun r => !r.user_accepted)
    else if outcome = some "escalated" then r2.filter (·.abstained)
    else if outcome = some "error" then r2.filter (·.error_occurred)
    else r2
  (List.insertionSort tsDescLe r3).take limit

/-! ## Query sandbox (`run_query`, `webapp/app.py` lines 522-534) -/

/-- Python `str.upper()` on the character sequence. -/
def pyUpper (l : List Char) : List Char := l.map Char.toUpper

/-- Python `str.strip()`: drop leading and trailing whitespace. -/
def pyStrip (l : List Char) : List Char :=
  ((l.dropWhile Char.isWhitespace).reverse.dropWhile Char.isWhitespace).reverse

/-- Python `text.startswith(w)`. -/
def startsWithSeq : List Char → List Char → Bool
  | [], _ => true
  | _ :: _, [] => false
  | a :: w, b :: l => a == b && startsWithSeq w l

/-- Python substring containment `w in text`. -/
def containsSeq (w : List Char) : List Char → Bool
  | [] => startsWithSeq w []
  | c :: rest => startsWithSeq w (c :: rest) || containsSeq w rest

/-- The keyword denylist of `run_query`, in source order. -/
def forbiddenWords : List String :=
  ["DROP", "DELETE", "INSERT", "UPDATE", "ALTER", "CREATE", "TRUNCATE"]

/-- Outcome of the `/explorer/query` endpoint's validation: a rejection
(Python `ValueError`, the `QueryRejected` failure) carrying its reason, or
hand-off of the original query text to the engine. -/
inductive QueryOutcome where
  | rejected (reason : String)
  | executed (query : List Char)
deriving DecidableEq, Repr

/-- `run_query` validation (`webapp/app.py` lines 522-534): uppercase and
strip the query, reject on the first forbidden keyword found anywhere in
it, then reject unless it starts with `SELECT`; otherwise execute the
original query text. -/
def run_query (query : List Char) : QueryOutcome :=
  let upper_query := pyStrip (pyUpper query)
  match forbiddenWords.find? (fun w => containsSeq w.data upper_query) with
  | some w => .rejected ("Forbidden SQL keyword: " ++ w ++ ". Only SELECT queries allowed.")
  | none =>
      if startsWithSeq "SELECT".data upper_query then .executed query
      else .rejected "Only SELECT queries are allowed."

/-! ## Run emitter (web endpoints, `webapp/app.py`) -/

/-- The agent collaborator's result, as consumed by the logging code
(`result.get(...)` in `upload_file` and `agent_query`). -/
structure AgentResult where
  response : String
  confidence : String
  abstained : Bool
  resolution_time_seconds : ℚ
  error : Bool
deriving DecidableEq, Repr

/-- The `workflow_stages` mapping table, duplicated at `webapp/app.py`
lines 334-339 and 447-452 and as `WORKFLOW_STAGES` in
`data/generate_data.py` lines 32-37. -/
def workflow_stages : List (String × String) :=
  [("lead_summary", "Pipeline Generation"),
   ("follow_up", "Deal Execution"),
   ("risk_analysis", "Deal Execution"),
   ("data_hygiene", "Onboarding & Adoption")]

/-- `workflow_stages.get(task_type, "Pipeline Generation")`. -/
def workflowStageFor (task_type : String) : String :=
  (workflow_stages.lookup task_type).getD "Pipeline Generation"

/-- The record logged by the `/upload` endpoint (`upload_file`,
`webapp/app.py` lines 340-357), given the agent result and the
write-time metadata (generated run id, current time). -/
def uploadRunRecord (task_type : String) (result : AgentResult)
    (rid : String) (now : Nat) : Record :=
  { run_id := rid
    timestamp := now
    user_id := "web_upload"
    task_type := task_type
    agent_version := "A"
    resolution_time_seconds := roundTo 2 result.resolution_time_seconds
    user_accepted := true
    user_rating := 0
    abstained := result.abstained
    error_occurred := result.error
    lead_source := "Web Upload"
    crm_stage := "SQL"
    opportunity_value := 0
    workflow_stage := workflowStageFor task_type
    time_saved_minutes := roundTo 1 (result.resolution_time_seconds * 3)
    prompt_version := "v2.0" }

/-- The record logged by the `/agent/query` playground endpoint
(`agent_query`, `webapp/app.py` lines 453-470). -/
def playgroundRunRecord (task_type : String) (result : AgentResult)
    (rid : String) (now : Nat) : Record :=
  { run_id := rid
    timestamp := now
    user_id := "web_playground"
    task_type := task_type
    agent_version := "A"
    resolution_time_seconds := roundTo 2 result.resolution_time_seconds
    user_accepted := true
    user_rating := 0
    abstained := result.abstained
    error_occurred := result.error
    lead_source := "Playground"
    crm_stage := "SQL"
    opportunity_value := 0
    workflow_stage := workflowStageFor task_type
    time_saved_minutes := roundTo 1 (result.resolution_time_seconds * 3)
    prompt_version := "v2.0" }

/-! ## Helper lemmas -/

theorem parseRecord_toRow (r : Record) : parseRecord fieldnames r.toRow = some r := rfl

theorem lookup_eq_none_of_not_mem_keys {α β : Type} [DecidableEq α] (a : α)
    (l : List (α × β)) (h : ∀ p ∈ l, a ≠ p.1) : l.lookup a = none := by
  induction l with
  | nil => rfl
  | cons p rest ih =>
      have h1 : a ≠ p.1 := h p (List.mem_cons_self p rest)
      have : (a == p.1) = false := beq_eq_false_iff_ne.mpr h1
      simp only [List.lookup, this]
      exact ih (fun q hq => h q (List.mem_cons_of_mem p hq))

theorem parseRows_cons (h : List String) (row : List Cell) (rest : List (List Cell)) :
    parseRows h (row :: rest) =
      (parseRecord h row).bind fun r =>
        (parseRows h rest).bind fun rs => some (r :: rs) := rfl

theorem parseRows_snoc (h : List String) (l : List (List Cell)) (rs : List Record)
    (hl : parseRows h l = some rs) (row : List Cell) (r : Record)
    (hr : parseRecord h row = some r) :
    parseRows h (l ++ [row]) = some (rs ++ [r]) := by
  induction l generalizing rs with
  | nil =>
      simp only [parseRows, Option.some.injEq] at hl
      subst hl
      rw [List.nil_append, parseRows_cons, hr]
      rfl
  | cons row0 rest ih =>
      rw [parseRows_cons] at hl
      rcases hpr : parseRecord h row0 with _ | r0 <;> rw [hpr] at hl
      · cases hl
      · rcases hps : parseRows h rest with _ | rs0 <;> rw [hps] at hl
        · cases hl
        · have hrs : r0 :: rs0 = rs := by simpa using hl
          subst hrs
          rw [List.cons_append, parseRows_cons, hpr, ih rs0 hps]
          rfl

theorem parseRows_get (h : List String) (rows : List (List Cell)) (rs : List Record)
    (hp : parseRows h rows = some rs) :
    rs.length = rows.length ∧
    ∀ i (hi : i < rows.length) (hj : i < rs.length),
      parseRecord h (rows.get ⟨i, hi⟩) = some (rs.get ⟨i, hj⟩) := by
  induction rows generalizing rs with
  | nil =>
      simp only [parseRows, Option.some.injEq] at hp
      subst hp
      exact ⟨rfl, fun i hi _ => absurd hi (Nat.not_lt_zero i)⟩
  | cons row rest ih =>
      rw [parseRows_cons] at hp
      rcases hpr : parseRecord h row with _ | r0 <;> rw [hpr] at hp
      · cases hp
      · rcases hps : parseRows h rest with _ | rs0 <;> rw [hps] at hp
        · cases hp
        · have hrs : r0 :: rs0 = rs := by simpa using hp
          subst hrs
          obtain ⟨hlen, hget⟩ := ih rs0 hps
          refine ⟨by simp [hlen], ?_⟩
          intro i hi hj
          cases i with
          | zero => simpa using hpr
          | succ n =>
              exact hget n (Nat.lt_of_succ_lt_succ hi) (Nat.lt_of_succ_lt_succ hj)

theorem parseRows_mem (h : List String) (rows : List (List Cell)) (rs : List Record)
    (hp : parseRows h rows = some rs) :
    ∀ r ∈ rs, ∃ row ∈ rows, parseRecord h row = some r := by
  induction rows generalizing rs with
  | nil =>
      simp only [parseRows, Option.some.injEq] at hp
      subst hp
      intro r hr
      exact absurd hr (List.not_mem_nil r)
  | cons row rest ih =>
      rw [parseRows_cons] at hp
      rcases hpr : parseRecord h row with _ | r0 <;> rw [hpr] at hp
      · cases hp
      · rcases hps : parseRows h rest with _ | rs0 <;> rw [hps] at hp
        · cases hp
        · have hrs : r0 :: rs0 = rs := by simpa using hp
          subst hrs
          intro r hr
          rcases List.mem_cons.mp hr with rfl | hr2
          · exact ⟨row, List.mem_cons_self _ _, hpr⟩
          · obtain ⟨row2, hrow2, hparse⟩ := ih rs0 hps r hr2
            exact ⟨row2, List.mem_cons_of_mem _ hrow2, hparse⟩

theorem load_csv_to_db_parses (f : CsvFile) (rs : List Record)
    (h : load_csv_to_db f = some rs) :
    parseRows f.header f.rows = some rs ∧
    (f.header.contains "timestamp" &&
      f.rows.all fun row => row.length == f.header.length) = true := by
  by_cases hg : (f.header.contains "timestamp" &&
      f.rows.all fun row => row.length == f.header.length) = true
  · refine ⟨?_, hg⟩
    unfold load_csv_to_db at h
    rwa [if_pos hg] at h
  · exfalso
    unfold load_csv_to_db at h
    rw [if_neg hg] at h
    cases h

theorem startsWithSeq_iff (w l : List Char) :
    startsWithSeq w l = true ↔ ∃ t, l = w ++ t := by
  induction w generalizing l with
  | nil => simp [startsWithSeq]
  | cons a w ih =>
      cases l with
      | nil =>
          simp [startsWithSeq]
      | cons b l =>
          simp only [startsWithSeq, Bool.and_eq_true, beq_iff_eq, ih, List.cons_append,
            List.cons.injEq]
          constructor
          · rintro ⟨rfl, t, rfl⟩
            exact ⟨t, rfl, rfl⟩
          · rintro ⟨t, rfl, rfl⟩
            exact ⟨rfl, t, rfl⟩

theorem containsSeq_iff (w l : List Char) :
    containsSeq w l = true ↔ ∃ s t, l = s ++ w ++ t := by
  induction l with
  | nil =>
      simp only [containsSeq, startsWithSeq_iff]
      constructor
      · rintro ⟨t, ht⟩
        exact ⟨[], t, by simpa using ht⟩
      · rintro ⟨s, t, hst⟩
        have := hst.symm
        rw [List.append_assoc, List.append_eq_nil] at this
        obtain ⟨rfl, h2⟩ := this
        exact ⟨t, by simpa using hst⟩
  | cons c rest ih =>
      simp only [containsSeq, Bool.or_eq_true, startsWithSeq_iff, ih]
      constructor
      · rintro (⟨t, ht⟩ | ⟨s, t, ht⟩)
        · exact ⟨[], t, by simpa using ht⟩
        · exact ⟨c :: s, t, by simp [ht]⟩
      · rintro ⟨s, t, hst⟩
        cases s with
        | nil =>
            left
            exact ⟨t, by simpa using hst⟩
        | cons a s =>
            right
            rw [List.cons_append, List.cons_append, List.cons.injEq] at hst
            exact ⟨s, t, hst.2⟩

theorem dropWhile_middle (p : Char → Bool) (w : List Char) (hne : w ≠ [])
    (hw : ∀ c ∈ w, p c = false) (s t : List Char) :
    ∃ s2, List.dropWhile p (s ++ w ++ t) = s2 ++ w ++ t := by
  induction s with
  | nil =>
      cases w with
      | nil => exact absurd rfl hne
      | cons a w2 =>
          refine ⟨[], ?_⟩
          have ha : p a = false := hw a (List.mem_cons_self a w2)
          simp [List.dropWhile_cons, ha]
  | cons a s ih =>
      by_cases hpa : p a = true
      · obtain ⟨s2, h2⟩ := ih
        refine ⟨s2, ?_⟩
        simp only [List.cons_append]
        rw [List.dropWhile_cons, if_pos hpa]
        simpa using h2
      · refine ⟨a :: s, ?_⟩
        simp only [List.cons_append]
        rw [List.dropWhile_cons, if_neg hpa]

theorem containsSeq_pyStrip (w : List Char) (hne : w ≠ [])
    (hw : ∀ c ∈ w, c.isWhitespace = false) (l : List Char)
    (h : containsSeq w l = true) : containsSeq w (pyStrip l) = true := by
  obtain ⟨s, t, rfl⟩ := (containsSeq_iff w l).mp h
  obtain ⟨s2, h2⟩ := dropWhile_middle Char.isWhitespace w hne hw s t
  have hrev : (s2 ++ w ++ t).reverse = t.reverse ++ w.reverse ++ s2.reverse := by
    simp [List.reverse_append, List.append_assoc]
  have hwr : ∀ c ∈ w.reverse, c.isWhitespace = false := fun c hc =>
    hw c (List.mem_reverse.mp hc)
  have hner : w.reverse ≠ [] := by simpa using hne
  obtain ⟨t2, h3⟩ := dropWhile_middle Char.isWhitespace w.reverse hner hwr t.reverse s2.reverse
  refine (containsSeq_iff w _).mpr ⟨s2, t2.reverse, ?_⟩
  unfold pyStrip
  rw [h2, hrev, h3]
  simp [List.reverse_append, List.append_assoc]

theorem forbiddenWords_wellformed :
    ∀ w ∈ forbiddenWords, w.data ≠ [] ∧ ∀ c ∈ w.data, c.isWhitespace = false := by
  decide

/-! ## Claim theorems -/

/-- C7: on an empty record set every rate measure of the summary view is
NULL (`none`) rather than a division-by-zero fault; the view is a total
function and reports zero runs. -/
theorem summary_empty_rates_are_null :
    (get_summary_stats []).acceptance_rate = none ∧
    (get_summary_stats []).abstention_rate = none ∧
    (get_summary_stats []).error_rate = none ∧
    (get_summary_stats []).total_runs = 0 :=
  ⟨rfl, rfl, rfl, rfl⟩

/-- C8: the workflow stage written into a logged run is derived from the
task type by the fixed four-entry `workflow_stages` mapping, any unmapped
task type defaulting to "Pipeline Generation"; in particular an upload
with `task_type = "data_hygiene"` records `workflow_stage =
"Onboarding & Adoption"` with no caller-supplied workflow stage. -/
theorem workflow_stage_derivation :
    (∀ (t : String) (res : AgentResult) (rid : String) (now : Nat),
      (uploadRunRecord t res rid now).workflow_stage = workflowStageFor t) ∧
    workflowStageFor "lead_summary" = "Pipeline Generation" ∧
    workflowStageFor "follow_up" = "Deal Execution" ∧
    workflowStageFor "risk_analysis" = "Deal Execution" ∧
    workflowStageFor "data_hygiene" = "Onboarding & Adoption" ∧
    (∀ t : String,
      t ∉ ["lead_summary", "follow_up", "risk_analysis", "data_hygiene"] →
      workflowStageFor t = "Pipeline Generation") ∧
    (∀ (res : AgentResult) (rid : String) (now : Nat),
      (uploadRunRecord "data_hygiene" res rid now).workflow_stage = "Onboarding & Adoption") := by
  refine ⟨fun _ _ _ _ => rfl, rfl, rfl, rfl, rfl, ?_, fun _ _ _ => rfl⟩
  intro t ht
  simp only [List.mem_cons, List.not_mem_nil, or_false, not_or] at ht
  obtain ⟨h1, h2, h3, h4⟩ := ht
  have : workflow_stages.lookup t = none := by
    apply lookup_eq_none_of_not_mem_keys
    intro p hp
    simp only [workflow_stages, List.mem_cons, List.not_mem_nil, or_false] at hp
    rcases hp with h | h | h | h <;> subst h
    · exact h1
    · exact h2
    · exact h3
    · exact h4
  simp [workflowStageFor, this]

theorem workflow_stage_derivation_witness :
    workflowStageFor "lead_qualification" = "Pipeline Generation" :=
  workflow_stage_derivation.2.2.2.2.2.1 "lead_qualification" (by decide)

/-- C3: any query that contains one of the forbidden keywords anywhere as
a case-insensitive substring is rejected by the sandbox with a
forbidden-keyword reason (never handed to the engine); in particular
`SELECT * FROM agent_runs; DROP TABLE agent_runs` is rejected with the
DROP keyword reason. -/
theorem run_query_rejects_forbidden_keywords :
    (∀ q : List Char,
      (∃ w ∈ forbiddenWords, containsSeq w.data (pyUpper q) = true) →
      ∃ w ∈ forbiddenWords,
        run_query q =
          .rejected ("Forbidden SQL keyword: " ++ w ++ ". Only SELECT queries allowed.")) ∧
    run_query "SELECT * FROM agent_runs; DROP TABLE agent_runs".data =
      .rejected "Forbidden SQL keyword: DROP. Only SELECT queries allowed." := by
  constructor
  · rintro q ⟨w, hwmem, hc⟩
    have hwf := forbiddenWords_wellformed w hwmem
    have hc2 : containsSeq w.data (pyStrip (pyUpper q)) = true :=
      containsSeq_pyStrip w.data hwf.1 hwf.2 _ hc
    have hsome :
        (forbiddenWords.find? (fun w2 => containsSeq w2.data (pyStrip (pyUpper q)))).isSome := by
      rw [List.find?_isSome]
      exact ⟨w, hwmem, hc2⟩
    obtain ⟨w2, hfind⟩ := Option.isSome_iff_exists.mp hsome
    refine ⟨w2, List.mem_of_find?_eq_some hfind, ?_⟩
    simp only [run_query]
    rw [hfind]
  · rfl

theorem run_query_rejects_forbidden_keywords_witness :
    ∃ w ∈ forbiddenWords,
      run_query "select user_rating from agent_runs; delete from agent_runs".data =
        .rejected ("Forbidden SQL keyword: " ++ w ++ ". Only SELECT queries allowed.") :=
  run_query_rejects_forbidden_keywords.1 _ (by decide)

/-- C4 counterexample: `UPDATE agent_runs SET ...` is a query whose
trimmed form does not begin with SELECT, yet the sandbox rejects it with
the forbidden-keyword reason for UPDATE (the denylist is checked first),
not with the "not a SELECT" reason the claim states. -/
theorem update_query_rejected_with_keyword_reason :
    run_query "UPDATE agent_runs SET user_rating = 5".data =
      .rejected "Forbidden SQL keyword: UPDATE. Only SELECT queries allowed." ∧
    startsWithSeq "SELECT".data
      (pyStrip (pyUpper "UPDATE agent_runs SET user_rating = 5".data)) = false ∧
    ("Forbidden SQL keyword: UPDATE. Only SELECT queries allowed." : String) ≠
      "Only SELECT queries are allowed." :=
  ⟨rfl, rfl, by decide⟩

/-- C4 (amended): a query whose stripped upper-cased form contains none of
the forbidden keywords and does not begin with SELECT is rejected with the
"Only SELECT queries are allowed." reason; a non-SELECT query containing a
forbidden keyword is instead rejected with that keyword's reason. -/
theorem run_query_rejects_non_select (q : List Char)
    (hk : ∀ w ∈ forbiddenWords, containsSeq w.data (pyStrip (pyUpper q)) = false)
    (hs : startsWithSeq "SELECT".data (pyStrip (pyUpper q)) = false) :
    run_query q = .rejected "Only SELECT queries are allowed." := by
  have hnone :
      forbiddenWords.find? (fun w => containsSeq w.data (pyStrip (pyUpper q))) = none := by
    rw [List.find?_eq_none]
    intro w hw
    rw [hk w hw]
    simp
  simp only [run_query]
  rw [hnone, hs]
  simp

theorem run_query_rejects_non_select_witness :
    run_query "SHOW TABLES".data = .rejected "Only SELECT queries are allowed." :=
  run_query_rejects_non_select _ (by decide) (by decide)

/-- A concrete agent-run record used by the end-to-end scenarios
(version "A", accepted). -/
def recA1 : Record :=
  { run_id := "RUN001"
    timestamp := 1
    user_id := "USR101"
    task_type := "lead_summary"
    agent_version := "A"
    resolution_time_seconds := 3
    user_accepted := true
    user_rating := 5
    abstained := false
    error_occurred := false
    lead_source := "Inbound - Webinar"
    crm_stage := "MQL"
    opportunity_value := 0
    workflow_stage := "Pipeline Generation"
    time_saved_minutes := 10
    prompt_version := "v2.0" }

/-- Scenario record: version "A", rejected (and escalated). -/
def recA2 : Record :=
  { recA1 with
    run_id := "RUN002"
    timestamp := 2
    user_accepted := false
    user_rating := 2
    abstained := true
    crm_stage := "Negotiation" }

/-- Scenario record: version "B", accepted. -/
def recB3 : Record :=
  { recA1 with
    run_id := "RUN003"
    timestamp := 3
    agent_version := "B"
    crm_stage := "Closed Won" }

theorem parseRecord_optional_fields (h : List String) (row : List Cell) (r : Record)
    (hp : parseRecord h row = some r) :
    ("workflow_stage" ∉ h → r.workflow_stage = "Pipeline Generation") ∧
    ("workflow_stage" ∈ h →
      getCell h row "workflow_stage" = some (.str r.workflow_stage)) ∧
    ("time_saved_minutes" ∉ h → r.time_saved_minutes = 0) ∧
    ("time_saved_minutes" ∈ h →
      ∃ c, getCell h row "time_saved_minutes" = some c ∧
        c.asRat = some r.time_saved_minutes) ∧
    ("prompt_version" ∉ h → r.prompt_version = "v1.0") ∧
    ("prompt_version" ∈ h →
      getCell h row "prompt_version" = some (.str r.prompt_version)) := by
  unfold parseRecord at hp
  obtain ⟨a1, e1, hp⟩ := Option.bind_eq_some.mp hp
  obtain ⟨a2, e2, hp⟩ := Option.bind_eq_some.mp hp
  obtain ⟨a3, e3, hp⟩ := Option.bind_eq_some.mp hp
  obtain ⟨a4, e4, hp⟩ := Option.bind_eq_some.mp hp
  obtain ⟨a5, e5, hp⟩ := Option.bind_eq_some.mp hp
  obtain ⟨a6, e6, hp⟩ := Option.bind_eq_some.mp hp
  obtain ⟨a7, e7, hp⟩ := Option.bind_eq_some.mp hp
  obtain ⟨a8, e8, hp⟩ := Option.bind_eq_some.mp hp
  obtain ⟨a9, e9, hp⟩ := Option.bind_eq_some.mp hp
  obtain ⟨a10, e10, hp⟩ := Option.bind_eq_some.mp hp
  obtain ⟨a11, e11, hp⟩ := Option.bind_eq_some.mp hp
  obtain ⟨a12, e12, hp⟩ := Option.bind_eq_some.mp hp
  obtain ⟨a13, e13, hp⟩ := Option.bind_eq_some.mp hp
  obtain ⟨a14, h14, hp⟩ := Option.bind_eq_some.mp hp
  obtain ⟨a15, h15, hp⟩ := Option.bind_eq_some.mp hp
  obtain ⟨a16, h16, hp⟩ := Option.bind_eq_some.mp hp
  injection hp with heq
  subst heq
  refine ⟨?_, ?_, ?_, ?_, ?_, ?_⟩
  · intro hmem
    unfold getColOrDefault at h14
    rw [if_neg hmem] at h14
    simpa [Cell.asStr] using h14.symm
  · intro hmem
    unfold getColOrDefault at h14
    rw [if_pos hmem] at h14
    obtain ⟨c, hc, hcs⟩ := Option.bind_eq_some.mp h14
    cases c <;> simp only [Cell.asStr, Option.some.injEq, reduceCtorEq] at hcs
    · rw [hc, hcs]
  · intro hmem
    unfold getColOrDefault at h15
    rw [if_neg hmem] at h15
    simpa [Cell.asRat] using h15.symm
  · intro hmem
    unfold getColOrDefault at h15
    rw [if_pos hmem] at h15
    exact Option.bind_eq_some.mp h15
  · intro hmem
    unfold getColOrDefault at h16
    rw [if_neg hmem] at h16
    simpa [Cell.asStr] using h16.symm
  · intro hmem
    unfold getColOrDefault at h16
    rw [if_pos hmem] at h16
    obtain ⟨c, hc, hcs⟩ := Option.bind_eq_some.mp h16
    cases c <;> simp only [Cell.asStr, Option.some.injEq, reduceCtorEq] at hcs
    · rw [hc, hcs]

/-- C1: loading a CSV log whose header lacks any of the three
legacy-optional columns yields records in which the missing columns are
filled with the documented defaults (workflow_stage = "Pipeline
Generation", time_saved_minutes = 0, prompt_version = "v1.0"), while a
column that is present is read into the records unchanged. -/
theorem load_fills_legacy_defaults (f : CsvFile) (rs : List Record)
    (h : load_csv_to_db f = some rs) :
    ("workflow_stage" ∉ f.header →
      ∀ r ∈ rs, r.workflow_stage = "Pipeline Generation") ∧
    ("time_saved_minutes" ∉ f.header → ∀ r ∈ rs, r.time_saved_minutes = 0) ∧
    ("prompt_version" ∉ f.header → ∀ r ∈ rs, r.prompt_version = "v1.0") ∧
    (∀ i (hi : i < f.rows.length) (hj : i < rs.length),
      ("workflow_stage" ∈ f.header →
        getCell f.header (f.rows.get ⟨i, hi⟩) "workflow_stage" =
          some (.str (rs.get ⟨i, hj⟩).workflow_stage)) ∧
      ("time_saved_minutes" ∈ f.header →
        ∃ c, getCell f.header (f.rows.get ⟨i, hi⟩) "time_saved_minutes" = some c ∧
          c.asRat = some (rs.get ⟨i, hj⟩).time_saved_minutes) ∧
      ("prompt_version" ∈ f.header →
        getCell f.header (f.rows.get ⟨i, hi⟩) "prompt_version" =
          some (.str (rs.get ⟨i, hj⟩).prompt_version))) := by
  obtain ⟨hrows, _⟩ := load_csv_to_db_parses f rs h
  refine ⟨?_, ?_, ?_, ?_⟩
  · intro hmem r hr
    obtain ⟨row, _, hparse⟩ := parseRows_mem _ _ _ hrows r hr
    exact (parseRecord_optional_fields _ _ _ hparse).1 hmem
  · intro hmem r hr
    obtain ⟨row, _, hparse⟩ := parseRows_mem _ _ _ hrows r hr
    exact (parseRecord_optional_fields _ _ _ hparse).2.2.1 hmem
  · intro hmem r hr
    obtain ⟨row, _, hparse⟩ := parseRows_mem _ _ _ hrows r hr
    exact (parseRecord_optional_fields _ _ _ hparse).2.2.2.2.1 hmem
  · intro i hi hj
    have hparse := (parseRows_get _ _ _ hrows).2 i hi hj
    have hfields := parseRecord_optional_fields _ _ _ hparse
    exact ⟨hfields.2.1, hfields.2.2.2.1, hfields.2.2.2.2.2⟩

/-- A legacy log file: the 13-column header predating the three optional
columns, with one well-typed row. -/
def legacyHeader : List String :=
  ["run_id", "timestamp", "user_id", "task_type", "agent_version",
   "resolution_time_seconds", "user_accepted", "user_rating", "abstained",
   "error_occurred", "lead_source", "crm_stage", "opportunity_value"]

def legacyRow : List Cell :=
  [.str "RUN900", .time 42, .str "USR101", .str "lead_summary", .str "A",
   .rat 3, .bool true, .int 4, .bool false, .bool false,
   .str "Event - Summit", .str "SQL", .rat 0]

def legacyFile : CsvFile := { header := legacyHeader, rows := [legacyRow] }

/-- The record that loading `legacyFile` produces: the 13 stored fields
plus the three defaults. -/
def legacyRec : Record :=
  { run_id := "RUN900"
    timestamp := 42
    user_id := "USR101"
    task_type := "lead_summary"
    agent_version := "A"
    resolution_time_seconds := 3
    user_accepted := true
    user_rating := 4
    abstained := false
    error_occurred := false
    lead_source := "Event - Summit"
    crm_stage := "SQL"
    opportunity_value := 0
    workflow_stage := "Pipeline Generation"
    time_saved_minutes := 0
    prompt_version := "v1.0" }

theorem load_fills_legacy_defaults_witness :
    legacyRec.workflow_stage = "Pipeline Generation" ∧
    legacyRec.time_saved_minutes = 0 ∧
    legacyRec.prompt_version = "v1.0" :=
  have hload : load_csv_to_db legacyFile = some [legacyRec] := rfl
  have hth := load_fills_legacy_defaults legacyFile [legacyRec] hload
  ⟨hth.1 (by decide) legacyRec (List.mem_singleton.mpr rfl),
   hth.2.1 (by decide) legacyRec (List.mem_singleton.mpr rfl),
   hth.2.2.1 (by decide) legacyRec (List.mem_singleton.mpr rfl)⟩

/-- C2: for every valid Record R, appending R to the log (log_agent_run)
and then loading the full log (load_csv_to_db) yields a record set
containing a record equal to R: every field survives the
serialize-to-CSV / parse-from-CSV round trip unchanged.  The pre-existing
log is assumed well-formed (absent, or carrying the canonical header and
loading successfully). -/
theorem append_load_round_trip (log : Option CsvFile) (r : Record)
    (hwf : log = none ∨
      ∃ f rs0, log = some f ∧ f.header = fieldnames ∧ load_csv_to_db f = some rs0) :
    ∃ rs, load_csv_to_db (log_agent_run log r) = some rs ∧ r ∈ rs := by
  rcases hwf with rfl | ⟨f, rs0, rfl, hh, hload⟩
  · exact ⟨[r], rfl, List.mem_singleton.mpr rfl⟩
  · obtain ⟨hrows, hguard⟩ := load_csv_to_db_parses f rs0 hload
    rw [Bool.and_eq_true] at hguard
    obtain ⟨hts, hall⟩ := hguard
    refine ⟨rs0 ++ [r], ?_, List.mem_append.mpr (Or.inr (List.mem_singleton.mpr rfl))⟩
    show load_csv_to_db ⟨f.header, f.rows ++ [r.toRow]⟩ = some (rs0 ++ [r])
    have hlen : ((r.toRow).length == f.header.length) = true := by
      rw [hh]
      rfl
    have hguard2 : ((⟨f.header, f.rows ++ [r.toRow]⟩ : CsvFile).header.contains "timestamp" &&
        ((⟨f.header, f.rows ++ [r.toRow]⟩ : CsvFile).rows.all
          fun row => row.length == (⟨f.header, f.rows ++ [r.toRow]⟩ : CsvFile).header.length)) =
        true := by
      simp only [Bool.and_eq_true]
      refine ⟨hts, ?_⟩
      rw [List.all_append]
      simp only [Bool.and_eq_true]
      refine ⟨hall, ?_⟩
      simp [hlen]
    unfold load_csv_to_db
    rw [if_pos hguard2]
    exact parseRows_snoc f.header f.rows rs0 hrows r.toRow r (by rw [hh]; exact parseRecord_toRow r)

theorem append_load_round_trip_witness :
    ∃ rs, load_csv_to_db (log_agent_run none recA1) = some rs ∧ recA1 ∈ rs :=
  append_load_round_trip none recA1 (Or.inl rfl)

theorem indicator_sum (g : List Record) (p : Record → Bool) :
    (g.map fun r => if p r then (1 : ℚ) else 0).sum = g.countP p := by
  induction g with
  | nil => simp
  | cons a g ih =>
      rw [List.map_cons, List.sum_cons, List.countP_cons, ih]
      by_cases h : p a
      · simp only [h, if_pos]
        push_cast
        ring
      · simp [h]

theorem pctTrue_eq (g : List Record) (p : Record → Bool) (hg : g ≠ []) :
    pctTrue g p = some (100 * (g.countP p : ℚ) / g.length) := by
  unfold pctTrue avgQ
  rw [if_neg (by simpa using hg)]
  simp only [Option.map_some']
  congr 1
  rw [indicator_sum, List.length_map]
  ring

/-- C5: in every group of the by-version view the acceptance percentage is
100 × (count of accepted records in the group) / (group size), and on the
three-record scenario (versions "A","A","B", accepted true,false,true) the
view reports A: count 2, acceptance 50% and B: count 1, acceptance
100%. -/
theorem metrics_by_version_rates :
    (∀ (rs : List Record) (row : VersionRow), row ∈ get_metrics_by_version rs →
      row.total_tasks =
        (rs.filter (fun r => r.agent_version == row.agent_version)).length ∧
      row.accuracy_pct = some (100 *
        ((rs.filter (fun r => r.agent_version == row.agent_version)).countP
          (·.user_accepted) : ℚ) /
        (rs.filter (fun r => r.agent_version == row.agent_version)).length)) ∧
    (get_metrics_by_version [recA1, recA2, recB3]).map
        (fun row => (row.agent_version, row.total_tasks, row.accuracy_pct)) =
      [("A", 2, some 50), ("B", 1, some 100)] := by
  constructor
  · intro rs row hmem
    simp only [get_metrics_by_version, List.mem_map] at hmem
    obtain ⟨v, hv, rfl⟩ := hmem
    have hv2 : v ∈ (rs.map (·.agent_version)).dedup :=
      (List.perm_insertionSort sqlStrLe _).mem_iff.mp hv
    have hv3 : v ∈ rs.map (·.agent_version) := List.mem_dedup.mp hv2
    obtain ⟨r0, hr0, hr0v⟩ := List.mem_map.mp hv3
    have hg : rs.filter (fun r => r.agent_version == v) ≠ [] := by
      intro hnil
      have hmem0 : r0 ∈ rs.filter (fun r => r.agent_version == v) :=
        List.mem_filter.mpr ⟨hr0, beq_iff_eq.mpr hr0v⟩
      rw [hnil] at hmem0
      exact List.not_mem_nil r0 hmem0
    exact ⟨rfl, pctTrue_eq _ _ hg⟩
  · have hkeys : List.insertionSort sqlStrLe
        ((([recA1, recA2, recB3] : List Record).map (·.agent_version)).dedup) = ["A", "B"] := by
      decide
    have hfA : ([recA1, recA2, recB3] : List Record).filter
        (fun r => r.agent_version == "A") = [recA1, recA2] := by decide
    have hfB : ([recA1, recA2, recB3] : List Record).filter
        (fun r => r.agent_version == "B") = [recB3] := by decide
    simp only [get_metrics_by_version]
    rw [hkeys]
    simp only [List.map_cons, List.map_nil, Function.comp_apply]
    rw [hfA, hfB]
    simp only [pctTrue, avgQ, List.map_cons, List.map_nil, recA1, recA2, recB3]
    norm_num
    exact ⟨1 / 2, ⟨by simp, rfl⟩, by norm_num⟩

theorem metrics_by_version_rates_witness :
    ∃ row ∈ get_metrics_by_version [recB3], row.total_tasks = 1 := by
  refine ⟨_, List.mem_cons_self _ _, ?_⟩
  have h := (metrics_by_version_rates.1 [recB3] _ (List.mem_cons_self _ _)).1
  rw [h]
  decide

/-- C6: the rows of the pipeline-funnel view are ordered by the fixed
stage-progression rank (MQL=1 … Closed Lost=9, any other stage=10), so
the known stages appear in the fixed sequence order and every unknown
crm_stage appears after Closed Lost. -/
theorem pipeline_funnel_ordered (rs : List Record) :
    List.Pairwise
      (fun a b : FunnelRow => stageRank a.crm_stage ≤ stageRank b.crm_stage)
      (get_pipeline_funnel rs) ∧
    List.Pairwise
      (fun a b : FunnelRow => stageRank a.crm_stage = 10 → b.crm_stage ≠ "Closed Lost")
      (get_pipeline_funnel rs) := by
  have h1 : List.Pairwise
      (fun a b : FunnelRow => stageRank a.crm_stage ≤ stageRank b.crm_stage)
      (get_pipeline_funnel rs) := by
    simp only [get_pipeline_funnel]
    rw [List.pairwise_map]
    exact List.sorted_insertionSort stageRankLe _
  refine ⟨h1, h1.imp ?_⟩
  intro a b hab h10 hcl
  rw [h10, hcl] at hab
  simp [stageRank] at hab

theorem pipeline_funnel_ordered_witness :
    List.Pairwise
      (fun a b : FunnelRow => stageRank a.crm_stage ≤ stageRank b.crm_stage)
      (get_pipeline_funnel [recA1, recA2, recB3]) :=
  (pipeline_funnel_ordered [recA1, recA2, recB3]).1

/-- C9: the audit listing with outcome "escalated" and no other filters
consists exactly of the records with abstained = true: every returned
record is abstained, rows are ordered by timestamp descending (newest
first), at most `limit` rows are returned, and whenever the abstained
subset fits within the limit the result is a permutation of exactly that
subset. -/
theorem audit_log_escalated (rs : List Record) (limit : Nat) :
    (∀ r ∈ get_audit_log rs limit none none (some "escalated"), r.abstained = true) ∧
    List.Pairwise (fun a b : Record => b.timestamp ≤ a.timestamp)
      (get_audit_log rs limit none none (some "escalated")) ∧
    (get_audit_log rs limit none none (some "escalated")).length ≤ limit ∧
    ((rs.filter (·.abstained)).length ≤ limit →
      List.Perm (get_audit_log rs limit none none (some "escalated"))
        (rs.filter (·.abstained))) := by
  have hdef : get_audit_log rs limit none none (some "escalated") =
      (List.insertionSort tsDescLe (rs.filter (·.abstained))).take limit := by
    simp [get_audit_log]
  refine ⟨?_, ?_, ?_, ?_⟩
  · intro r hr
    rw [hdef] at hr
    have h2 : r ∈ List.insertionSort tsDescLe (rs.filter (·.abstained)) :=
      List.mem_of_mem_take hr
    have h3 : r ∈ rs.filter (·.abstained) :=
      (List.perm_insertionSort tsDescLe _).mem_iff.mp h2
    exact List.of_mem_filter h3
  · rw [hdef]
    exact (List.sorted_insertionSort tsDescLe _).sublist
      (List.take_sublist limit _)
  · rw [hdef]
    exact List.length_take_le limit _
  · intro hlen
    rw [hdef]
    have hslen : (List.insertionSort tsDescLe (rs.filter (·.abstained))).length =
        (rs.filter (·.abstained)).length :=
      (List.perm_insertionSort tsDescLe _).length_eq
    rw [List.take_of_length_le (by rw [hslen]; exact hlen)]
    exact List.perm_insertionSort tsDescLe _

theorem audit_log_escalated_witness :
    List.Perm (get_audit_log [recA1, recA2, recB3] 2 none none (some "escalated"))
      (([recA1, recA2, recB3] : List Record).filter (·.abstained)) :=
  (audit_log_escalated [recA1, recA2, recB3] 2).2.2.2 (by decide)

/-- An agent result in which the collaborator abstained and recommended
escalation (the boundary shape of `GTMAgent.process_task` on an
escalation-pattern match, `agent/agent.py` lines 155-159). -/
def escalatedResult : AgentResult :=
  { response := "This query requires human expertise"
    confidence := "escalation"
    abstained := true
    resolution_time_seconds := 2
    error := false }

/-- C10: evaluation of the web logging code at an escalated agent result.
Both the `/upload` and the `/agent/query` playground endpoints hardcode
`user_accepted = True` while copying `abstained` from the agent result, so
an abstained run is logged with `abstained = true` and
`user_accepted = true`, violating the claimed mutual-consistency
invariant (`abstained = true → user_accepted = false`). -/
theorem web_logging_violates_abstention_consistency :
    (uploadRunRecord "follow_up" escalatedResult "WEB1A2B3C" 100).abstained = true ∧
    (uploadRunRecord "follow_up" escalatedResult "WEB1A2B3C" 100).user_accepted = true ∧
    (playgroundRunRecord "follow_up" escalatedResult "PLY1A2B3C" 100).abstained = true ∧
    (playgroundRunRecord "follow_up" escalatedResult "PLY1A2B3C" 100).user_accepted = true :=
  ⟨rfl, rfl, rfl, rfl⟩
